import Mathlib

/-!
Verification of the crick-stream front-end services against their
natural-language specification.

The TypeScript services are shallowly embedded: JavaScript strings are
Lean `String`s manipulated through their underlying `List Char`, epoch
timestamps (`Date.getTime()` milliseconds) are `Int`, optional / possibly
`undefined` fields are `Option`, and JavaScript truthiness of a string
field (`undefined` and `""` are falsy) is made explicit.  Network effects
(HTTP probes, `Promise.allSettled` outcomes, `Math.random`) are passed in
as explicit arguments, so every function is pure and executable.
-/

namespace CrickStream

/-- The three match states of `types/cricket.ts`. -/
inductive MatchStatus
  | live
  | upcoming
  | completed
deriving DecidableEq, Repr

/-- Team descriptor from `types/cricket.ts` (`logo` is optional). -/
structure Team where
  name : String
  shortName : String
  flag : String
  logo : Option String := none
deriving DecidableEq, Repr

/-- Record `CricketMatch` from `types/cricket.ts`.  `startTime` (an ISO string in
the source) is modelled as the epoch-millisecond value the code obtains
from it via `new Date(...).getTime()`. -/
structure CricketMatch where
  id : String
  title : String
  team1 : Team
  team2 : Team
  startTime : Int
  status : MatchStatus
  tournament : String
  image : String
  streamUrl : Option String := none
  language : String
  isStreamable : Bool
  quality : Option String := none
deriving DecidableEq, Repr

/-! ### JavaScript string primitives, over `String.data` -/

/-- JS truthiness of a possibly-`undefined` string (`undefined` and `""`
are falsy). -/
def jsTruthyS : Option String → Bool
  | none => false
  | some s => decide (s ≠ "")

/-- JS `a || b` on possibly-`undefined` strings. -/
def jsOrS (a b : Option String) : Option String :=
  if jsTruthyS a then a else b

/-- JS `a || "d"` ending a fallback chain in a (non-empty) literal. -/
def jsOrD (a : Option String) (d : String) : String :=
  match a with
  | none => d
  | some s => if s = "" then d else s

/-- JS string interpolation `${x}` of a possibly-`undefined` value. -/
def jsInterp : Option String → String
  | none => "undefined"
  | some s => s

/-- JS `String.prototype.toUpperCase` (ASCII part, which is all the code
relies on). -/
def jsToUpper (s : String) : String := ⟨s.data.map Char.toUpper⟩

/-- JS `String.prototype.toLowerCase` (ASCII part). -/
def jsToLower (s : String) : String := ⟨s.data.map Char.toLower⟩

/-- JS `s.substring(0, n)`. -/
def jsTake (s : String) (n : Nat) : String := ⟨s.data.take n⟩

/-- JS `s.charAt(n)`: the character at `n`, or `""` out of range. -/
def jsCharAt (s : String) (n : Nat) : String := ⟨(s.data.drop n).take 1⟩

/-- JS indexing `s[n]` followed by string concatenation: the character at
`n`, or the string `"undefined"` when the index is out of range (string
concatenation stringifies the `undefined`). -/
def jsIndexStr (s : String) (n : Nat) : String :=
  if n < s.data.length then ⟨(s.data.drop n).take 1⟩ else "undefined"

/-- JS `s.length`. -/
def jsLength (s : String) : Nat := s.data.length

/-- JS `parts.join(c)` with the empty separator. -/
def jsJoin (l : List String) : String := ⟨(l.map String.data).flatten⟩

def splitCharAux (c : Char) : List Char → List Char → List (List Char)
  | [], acc => [acc.reverse]
  | x :: xs, acc =>
    if x = c then acc.reverse :: splitCharAux c xs []
    else splitCharAux c xs (x :: acc)

/-- JS `s.split(c)` for a single-character separator (keeps empty
fields, `"".split(c) = [""]`). -/
def jsSplitChar (s : String) (c : Char) : List String :=
  (splitCharAux c s.data []).map fun l => ⟨l⟩

/-- JS `\s` test: whitespace character. -/
def jsIsWs (c : Char) : Bool := c.isWhitespace

/-- JS `s.split(/\s+/)` applied to an already-trimmed string: runs of
whitespace separate the words, and the empty string yields `[""]`. -/
def jsSplitWs (s : String) : List String :=
  if s = "" then [""]
  else ((splitCharAux ' ' s.data []).map fun l => (⟨l⟩ : String)).filter (fun w => w ≠ "")

/-- JS `s.trim()`. -/
def jsTrim (s : String) : String :=
  ⟨((s.data.dropWhile jsIsWs).reverse.dropWhile jsIsWs).reverse⟩

/-- First occurrence of `pat` in a character list: returns the part
before it and the part after it. -/
def findSplit (pat : List Char) : List Char → Option (List Char × List Char)
  | [] => if pat = [] then some ([], []) else none
  | x :: xs =>
    if pat.isPrefixOf (x :: xs) then some ([], (x :: xs).drop pat.length)
    else (findSplit pat xs).map fun p => (x :: p.1, p.2)

/-- JS `s.includes(pat)`. -/
def jsIncludes (s pat : String) : Bool := (findSplit pat.data s.data).isSome

/-- JS `s.replace(pat, rep)` with a string pattern: replaces the first
occurrence only. -/
def jsReplaceFirst (s pat rep : String) : String :=
  match findSplit pat.data s.data with
  | some (a, b) => ⟨a ++ rep.data ++ b⟩
  | none => s

/-! ### `encodeURIComponent`

Characters `A-Z a-z 0-9 - _ . ! ~ * ( )` and the apostrophe (code 39)
stay; every other character is percent-encoded byte-wise from its UTF-8
encoding, with uppercase hex digits. -/

def hexDigit (n : Nat) : Char :=
  if n < 10 then Char.ofNat (48 + n) else Char.ofNat (55 + n)

def utf8Bytes (c : Char) : List Nat :=
  let n := c.toNat
  if n < 128 then [n]
  else if n < 2048 then [192 + n / 64, 128 + n % 64]
  else if n < 65536 then [224 + n / 4096, 128 + (n / 64) % 64, 128 + n % 64]
  else [240 + n / 262144, 128 + (n / 4096) % 64, 128 + (n / 64) % 64, 128 + n % 64]

def uriUnreserved (c : Char) : Bool :=
  let n := c.toNat
  (65 ≤ n && n ≤ 90) || (97 ≤ n && n ≤ 122) || (48 ≤ n && n ≤ 57) ||
  n = 45 || n = 95 || n = 46 || n = 33 || n = 126 || n = 42 || n = 39 ||
  n = 40 || n = 41

def encodeChar (c : Char) : List Char :=
  if uriUnreserved c then [c]
  else (utf8Bytes c).flatMap fun b => ['%', hexDigit (b / 16), hexDigit (b % 16)]

/-- JS `encodeURIComponent`. -/
def encodeURIComponent (s : String) : String :=
  ⟨s.data.flatMap encodeChar⟩

/-! ### Raw (untyped) upstream match objects

`services/cricketApi.ts` parses untyped JSON objects.  The fields the
code reads are modelled explicitly; absent (`undefined`) fields are
`none`.  Date-valued fields (ISO strings in the JSON) are modelled by
their epoch-millisecond value, `none` standing for an absent field whose
`new Date(undefined)` is an Invalid Date (all its comparisons are
false). -/

/-- The `match.streaming` sub-object. -/
structure StreamingObj where
  hls : Option String := none
  manifest : Option String := none
  url : Option String := none
deriving DecidableEq, Repr

/-- The fields of an untyped FanCode match object that
`parseAdvancedMatchData`, `determineAdvancedStatus`, `extractStreamUrl`
and `hasStreamingData` read.  `teamDash1`/`teamDash2` are the
the bracket accesses of the team-1 / team-2 JSON keys, `typeLabel` is the
`match.type` field, and the boolean fields model the truthiness of the
corresponding JSON values. -/
structure RawFCMatch where
  id : Option String := none
  match_id : Option String := none
  unique_id : Option String := none
  title : Option String := none
  name : Option String := none
  team1_name : Option String := none
  team1_short_name : Option String := none
  team1_shortName : Option String := none
  team1_flag : Option String := none
  team1_logo : Option String := none
  teamDash1 : Option String := none
  teams0_name : Option String := none
  team2_name : Option String := none
  team2_short_name : Option String := none
  team2_shortName : Option String := none
  team2_flag : Option String := none
  team2_logo : Option String := none
  teamDash2 : Option String := none
  teams1_name : Option String := none
  start_time : Option Int := none
  startTime : Option Int := none
  dateTimeGMT : Option Int := none
  scheduled_at : Option Int := none
  status : Option String := none
  is_live : Bool := false
  live : Bool := false
  finished : Bool := false
  match_ended : Bool := false
  scheduled : Bool := false
  tournament_name : Option String := none
  series_name : Option String := none
  competition_name : Option String := none
  typeLabel : Option String := none
  image : Option String := none
  banner : Option String := none
  poster : Option String := none
  stream_url : Option String := none
  streamUrl : Option String := none
  hls_url : Option String := none
  manifest_url : Option String := none
  streaming : Option StreamingObj := none
  live_streaming : Bool := false
  language : Option String := none
deriving DecidableEq, Repr

/-- JS `a || b` on the date-valued fields (a present field is a
non-empty ISO string, hence truthy). -/
def jsOrI (a b : Option Int) : Option Int :=
  if a.isSome then a else b

/-- The `start_time || startTime || dateTimeGMT || scheduled_at` chain
used by `determineAdvancedStatus` and `parseAdvancedMatchData`. -/
def RawFCMatch.startChain (m : RawFCMatch) : Option Int :=
  jsOrI (jsOrI (jsOrI m.start_time m.startTime) m.dateTimeGMT) m.scheduled_at

namespace CricketApiService

/-- Typical match duration used by `determineAdvancedStatus`:
`8 * 60 * 60 * 1000` ms. -/
def matchDuration : Int := 8 * 60 * 60 * 1000

/-- Embeds `determineAdvancedStatus` of `services/cricketApi.ts` (lines
442-468): explicit status fields first, then the 8-hour time window
around the parsed start time; an unparsable (absent) start time falls
through every comparison to `completed`. -/
def determineAdvancedStatus (m : RawFCMatch) (now : Int) : MatchStatus :=
  if m.status = some "live" ∨ m.status = some "LIVE" ∨ m.is_live ∨ m.live then
    .live
  else if m.status = some "completed" ∨ m.status = some "COMPLETED" ∨
      m.finished ∨ m.match_ended then
    .completed
  else if m.status = some "upcoming" ∨ m.status = some "UPCOMING" ∨ m.scheduled then
    .upcoming
  else
    match m.startChain with
    | none => .completed
    | some startTime =>
      if startTime ≤ now ∧ now ≤ startTime + matchDuration then .live
      else if startTime > now then .upcoming
      else .completed

end CricketApiService

namespace OriginalSiteApiService

/-- Embeds `determineStatus` of the original-site service (`corsProxy.ts`
aggregate, lines 452-460).  The source computes
`diffHours = (start - now) / 3600000` and tests
`diffHours < -3` / `diffHours < 1 && diffHours > -3`; multiplying the
exact rational comparisons through by the positive denominator gives the
equivalent millisecond tests used here. -/
def determineStatus (startMs now : Int) : MatchStatus :=
  if startMs - now < -10800000 then .completed
  else if startMs - now < 3600000 ∧ startMs - now > -10800000 then .live
  else .upcoming

end OriginalSiteApiService

/-- Modelled from the claim wording alone (for comparison with the
code): the time-window rule "if start ≤ now ≤ start + 8 hours the result
is live, if start > now it is upcoming, otherwise completed". -/
def claimTimeWindowRule (start now : Int) : MatchStatus :=
  if start ≤ now ∧ now ≤ start + 28800000 then .live
  else if start > now then .upcoming
  else .completed

/-- Being "all-uppercase" in the sense of the spec: the string contains no
lowercase ASCII letter (so applying `toUpperCase` again is the
identity). -/
def NoLowercase (s : String) : Prop := ∀ c ∈ s.data, c.isLower = false

instance (s : String) : Decidable (NoLowercase s) := by
  unfold NoLowercase; infer_instance

namespace CricketApiService

/-- Embeds `generateShortName` of `services/cricketApi.ts` (lines 327-352). -/
def generateShortName (fullName : String) : String :=
  if fullName = "" then "TBD"
  else
    let words := jsSplitChar fullName ' '
    if words.length = 1 then jsToUpper (jsTake (words.headD "") 3)
    else if jsIncludes fullName "Women" then
      jsToUpper (jsTake (jsTrim (jsReplaceFirst fullName "Women" "")) 3) ++ "W"
    else
      let significantWords := words.filter fun w =>
        !(["A", "vs", "and", "the", "of"].contains w)
      if significantWords.length ≥ 2 then
        jsJoin ((significantWords.take 3).map fun w => jsToUpper (jsCharAt w 0))
      else jsToUpper (jsTake fullName 3)

/-- The status ordering of `removeDuplicateMatches`:
`{ live: 0, upcoming: 1, completed: 2 }`. -/
def statusPriority : MatchStatus → Nat
  | .live => 0
  | .upcoming => 1
  | .completed => 2

/-- The final `unique.sort((a, b) => statusPriority[a.status] -
statusPriority[b.status])` of `removeDuplicateMatches`.
`Array.prototype.sort` is stable and the key takes only the three values
0, 1, 2, so the result is exactly the three status buckets concatenated
in key order, each in input order. -/
def sortByStatusPriority (l : List CricketMatch) : List CricketMatch :=
  l.filter (fun m => decide (m.status = .live)) ++
  l.filter (fun m => decide (m.status = .upcoming)) ++
  l.filter (fun m => decide (m.status = .completed))

/-- The composite key
`` `${match.team1.name}-${match.team2.name}-${match.tournament}`.toLowerCase() ``. -/
def matchKey (m : CricketMatch) : String :=
  jsToLower (m.team1.name ++ "-" ++ m.team2.name ++ "-" ++ m.tournament)

/-- The filtering loop of `removeDuplicateMatches` (lines 651-663) with
its `seen` set threaded explicitly: a match is kept iff neither its
composite key nor its id has been seen, and keeping it records both. -/
def removeDuplicateMatchesAux (seen : List String) : List CricketMatch → List CricketMatch
  | [] => []
  | m :: rest =>
    if !(seen.contains (matchKey m)) && !(seen.contains m.id) then
      m :: removeDuplicateMatchesAux (m.id :: matchKey m :: seen) rest
    else removeDuplicateMatchesAux seen rest

/-- Embeds `removeDuplicateMatches` of `services/cricketApi.ts` (lines
651-669): dedup by key/id, then stable sort by status priority. -/
def removeDuplicateMatches (ms : List CricketMatch) : List CricketMatch :=
  sortByStatusPriority (removeDuplicateMatchesAux [] ms)

/-- Embeds `getRefreshInterval` of `services/cricketApi.ts` (lines 627-648).
`now` is the `new Date()` taken inside the function, and
`m.startTime - now` the `timeDiff` it computes. -/
def getRefreshInterval (ms : List CricketMatch) (now : Int) : Nat :=
  let liveMatches := ms.filter fun m => decide (m.status = .live)
  let upcomingMatches := ms.filter fun m => decide (m.status = .upcoming)
  if liveMatches.length > 0 then 10000
  else if upcomingMatches.length > 0 then
    let soonMatches := upcomingMatches.filter fun m =>
      decide (m.startTime - now > 0 ∧ m.startTime - now < 30 * 60 * 1000)
    if soonMatches.length > 0 then 15000 else 30000
  else 30000

end CricketApiService

namespace OriginalSiteApiService

/-- Embeds `generateShortName` of the original-site service (`corsProxy.ts`
aggregate, lines 398-411).  In the two-word branch the source reads
`words[1][1]`, which is `undefined` when the second word has a single
character; string concatenation then stringifies it (`jsIndexStr`). -/
def generateShortName (teamName : String) : String :=
  if teamName = "" then "TM"
  else
    let words := jsSplitWs (jsTrim teamName)
    if words.length = 1 then jsToUpper (jsTake (words.headD "") 3)
    else if words.length = 2 then
      jsToUpper (jsIndexStr (words.headD "") 0 ++ jsIndexStr (words.getD 1 "") 0 ++
        jsIndexStr (words.getD 1 "") 1)
    else
      jsToUpper (jsJoin ((words.take 3).map fun w => jsIndexStr w 0))

end OriginalSiteApiService

/-! ### Network probes and stream-URL resolution -/

/-- Outcome of an `axios.head` request: `err` when the promise rejects
(network error or non-2xx status), `ok s` when it resolves with HTTP
status `s` (a 2xx status under axios defaults). -/
inductive ProbeResult
  | err
  | ok (status : Nat)
deriving DecidableEq, Repr

namespace CricketApiService

/-- List `CORS_PROXIES` of `services/cricketApi.ts` (lines 6-11). -/
def CORS_PROXIES : List String :=
  ["https://api.allorigins.win/raw?url=",
   "https://cors-anywhere.herokuapp.com/",
   "https://api.codetabs.com/v1/proxy?quest=",
   "https://thingproxy.freeboard.io/fetch/"]

/-- The `streamSources` candidate list of `getStreamUrl` (lines
565-570). -/
def streamSources (matchId : String) : List String :=
  ["https://d2ao0uy6gqh4.cloudfront.net/fancode/matches/" ++ matchId ++ "/manifest.m3u8",
   "https://streaming.fancode.com/hls/" ++ matchId ++ "/playlist.m3u8",
   "https://fancode.com/match/" ++ matchId ++ "/stream.m3u8",
   "https://streaming.fancode.com/live/" ++ matchId ++ "/index.m3u8"]

/-- The `demoStreams` fallback list of `getStreamUrl` (lines 609-614). -/
def demoStreams : List String :=
  ["https://test-streams.mux.dev/x36xhzz/x36xhzz.m3u8",
   "https://commondatastorage.googleapis.com/gtv-videos-bucket/sample/BigBuckBunny.mp4",
   "https://bitdash-a.akamaihd.net/content/sintel/hls/playlist.m3u8",
   "https://demo.unified-streaming.com/k8s/features/stable/video/tears-of-steel/tears-of-steel.ism/.m3u8"]

/-- The inner proxy loop of `getStreamUrl` (lines 592-604): HEAD each
proxied variant, succeed on a 200, otherwise move to the next proxy. -/
def probeProxies (probe : String → ProbeResult) (streamUrl : String) :
    List String → Bool
  | [] => false
  | proxy :: rest =>
    match probe (proxy ++ encodeURIComponent streamUrl) with
    | .ok s => if s = 200 then true else probeProxies probe streamUrl rest
    | .err => probeProxies probe streamUrl rest

/-- Whether one candidate of `getStreamUrl` is accepted: a direct HEAD
resolving with status 200, or — only when the direct HEAD rejects
(`catch` branch) — some CORS proxy resolving with status 200.  A direct
HEAD that resolves with a status other than 200 skips the proxies. -/
def candidateSucceeds (probe : String → ProbeResult) (streamUrl : String) : Bool :=
  match probe streamUrl with
  | .ok s => if s = 200 then true else false
  | .err => probeProxies probe streamUrl CORS_PROXIES

/-- The `for (const streamUrl of streamSources)` loop of
`getStreamUrl`: the first accepted candidate, if any. -/
def getStreamUrlLoop (probe : String → ProbeResult) : List String → Option String
  | [] => none
  | u :: rest =>
    if candidateSucceeds probe u then some u else getStreamUrlLoop probe rest

/-- Embeds `getStreamUrl` of `services/cricketApi.ts` (lines 560-624).  `probe`
is the network (result of `axios.head` per URL) and `rand` the value of
`Math.floor(Math.random() * demoStreams.length)`. -/
def getStreamUrl (matchId : String) (probe : String → ProbeResult) (rand : Fin 4) :
    String :=
  match getStreamUrlLoop probe (streamSources matchId) with
  | some u => u
  | none => demoStreams.get ⟨rand.val, rand.isLt⟩

end CricketApiService

namespace StreamModal

/-- The fields of a match object that `fetchStreamUrl` of the stream
modal reads (the GitHub feed attaches `adfree_url`, `dai_url` and
`match_id` beyond the `CricketMatch` interface). -/
structure StreamMatch where
  adfree_url : Option String := none
  dai_url : Option String := none
  streamUrl : Option String := none
  match_id : Option String := none
  id : String
deriving DecidableEq, Repr

/-- Embeds `fetchStreamUrl` of the stream-modal component: priority
`adfree_url > dai_url > streamUrl > cricketApi.getStreamUrl(match_id ||
id)`.  Returns the URL handed to the player. -/
def fetchStreamUrl (m : StreamMatch) (probe : String → ProbeResult) (rand : Fin 4) :
    String :=
  if jsTruthyS m.adfree_url then m.adfree_url.getD ""
  else if jsTruthyS m.dai_url then m.dai_url.getD ""
  else if jsTruthyS m.streamUrl then m.streamUrl.getD ""
  else CricketApiService.getStreamUrl (jsOrD m.match_id m.id) probe rand

end StreamModal

/-! ### The `CorsProxy` helper (`corsProxy.ts`, first document) -/

namespace CorsProxy

/-- List `CorsProxy.proxyUrls` (lines 3-8), in declaration order. -/
def proxyUrls : List String :=
  ["https://cors-anywhere.herokuapp.com/",
   "https://api.allorigins.win/raw?url=",
   "https://corsproxy.io/?",
   "https://cors-proxy.fringe.zone/"]

/-- List `CorsProxy.sonyLivProxies` (lines 10-13). -/
def sonyLivProxies : List String :=
  ["https://proxy.cors.sh/",
   "https://api.codetabs.com/v1/proxy?quest="]

/-- Embeds `CorsProxy.getSonyLivUrl` (lines 15-24). -/
def getSonyLivUrl (originalUrl : String) : List String :=
  jsReplaceFirst originalUrl "https://dai.google.com" "https://sony-liv-proxy.vercel.app/proxy" ::
  ((sonyLivProxies.map fun proxy => proxy ++ encodeURIComponent originalUrl) ++
   (proxyUrls.map fun proxy => proxy ++ encodeURIComponent originalUrl))

/-- Embeds `CorsProxy.getProxiedUrls` (lines 26-37). -/
def getProxiedUrls (originalUrl : String) : List String :=
  if jsIncludes originalUrl "sonyliv.com" || jsIncludes originalUrl "dai.google.com" then
    getSonyLivUrl originalUrl
  else
    originalUrl :: (proxyUrls.map fun proxy => proxy ++ encodeURIComponent originalUrl)

end CorsProxy

/-! ### `fetchLiveMatches`: caching and fallback -/

namespace CricketApiService

/-- One settled promise of the `Promise.allSettled` over the remote
sources: rejected, or fulfilled with an `ApiResponse`-shaped value
(`success` plus optional `data`). -/
inductive SettledOutcome
  | rejected
  | fulfilled (success : Bool) (data : Option (List CricketMatch))
deriving DecidableEq, Repr

/-- The combination loop of `fetchLiveMatches` (lines 86-91):
concatenate `response.value.data || []` over the fulfilled, successful
responses, in order. -/
def collectMatches : List SettledOutcome → List CricketMatch
  | [] => []
  | .rejected :: rest => collectMatches rest
  | .fulfilled success data :: rest =>
    if success then data.getD [] ++ collectMatches rest else collectMatches rest

/-- The `live_matches` entry of the in-memory cache map: the stored
match list and the `Date.now()` at which it was stored. -/
abbrev CacheState := Option (List CricketMatch × Int)

/-- Constant `CACHE_DURATION` (line 26): 15000 ms. -/
def CACHE_DURATION : Int := 15000

/-- Embeds `getCachedData` (lines 36-42) for the `live_matches` key. -/
def getCachedData (cache : CacheState) (now : Int) : Option (List CricketMatch) :=
  match cache with
  | some (data, ts) => if now - ts < CACHE_DURATION then some data else none
  | none => none

/-- Embeds `getEnhancedMockMatches` (lines 470-558): the four static fallback
records, with start times relative to `currentTime`. -/
def getEnhancedMockMatches (currentTime : Int) : List CricketMatch :=
  [{ id := "live_ind_aus_001",
     title := "India vs Australia - T20 World Cup Final",
     team1 := { name := "India", shortName := "IND",
                flag := "https://flagcdn.com/w40/in.png" },
     team2 := { name := "Australia", shortName := "AUS",
                flag := "https://flagcdn.com/w40/au.png" },
     startTime := currentTime - 3600000,
     status := .live,
     tournament := "T20 World Cup 2025",
     image := "/api/placeholder/400/200?text=T20+World+Cup+Final",
     streamUrl := some "https://commondatastorage.googleapis.com/gtv-videos-bucket/sample/BigBuckBunny.mp4",
     language := "ENGLISH",
     isStreamable := true },
   { id := "live_pak_eng_002",
     title := "Pakistan vs England - Champions Trophy",
     team1 := { name := "Pakistan", shortName := "PAK",
                flag := "https://flagcdn.com/w40/pk.png" },
     team2 := { name := "England", shortName := "ENG",
                flag := "https://flagcdn.com/w40/gb-eng.png" },
     startTime := currentTime - 30 * 60 * 1000,
     status := .live,
     tournament := "Champions Trophy 2025",
     image := "/api/placeholder/400/200?text=Champions+Trophy",
     streamUrl := some "https://test-streams.mux.dev/x36xhzz/x36xhzz.m3u8",
     language := "ENGLISH",
     isStreamable := true },
   { id := "upcoming_sa_nz_003",
     title := "South Africa vs New Zealand",
     team1 := { name := "South Africa", shortName := "SA",
                flag := "https://flagcdn.com/w40/za.png" },
     team2 := { name := "New Zealand", shortName := "NZ",
                flag := "https://flagcdn.com/w40/nz.png" },
     startTime := currentTime + 2 * 3600000,
     status := .upcoming,
     tournament := "Test Championship",
     image := "/api/placeholder/400/200?text=Test+Championship",
     language := "ENGLISH",
     isStreamable := true },
   { id := "upcoming_wi_sri_004",
     title := "West Indies vs Sri Lanka",
     team1 := { name := "West Indies", shortName := "WI",
                flag := "https://flagcdn.com/w40/bb.png" },
     team2 := { name := "Sri Lanka", shortName := "SL",
                flag := "https://flagcdn.com/w40/lk.png" },
     startTime := currentTime + 4 * 3600000,
     status := .upcoming,
     tournament := "ODI Series 2025",
     image := "/api/placeholder/400/200?text=ODI+Series",
     language := "ENGLISH",
     isStreamable := false }]

/-- What one call of `fetchLiveMatches` produces: the `ApiResponse`
(success flag and data), the cache map afterwards, and whether the call
went past the cache check to the network. -/
structure FetchResult where
  success : Bool
  data : List CricketMatch
  cache : CacheState
  fetched : Bool
deriving Repr

/-- Embeds `fetchLiveMatches` (lines 48-114).  `outcomes` are the settled
results of the remote-source promises (one per source tried), and
`threw` models the `catch` path: an exception anywhere in the `try`
block answers the enhanced mock matches without touching the cache. -/
def fetchLiveMatches (cache : CacheState) (now : Int)
    (outcomes : List SettledOutcome) (threw : Bool) : FetchResult :=
  if threw then
    { success := true, data := getEnhancedMockMatches now, cache := cache,
      fetched := true }
  else
    match getCachedData cache now with
    | some cached =>
      { success := true, data := cached, cache := cache, fetched := false }
    | none =>
      let allMatches := collectMatches outcomes
      let uniqueMatches := removeDuplicateMatches allMatches
      if uniqueMatches.length > 0 then
        { success := true, data := uniqueMatches,
          cache := some (uniqueMatches, now), fetched := true }
      else
        { success := true, data := getEnhancedMockMatches now,
          cache := some (getEnhancedMockMatches now, now), fetched := true }

/-- Invariant of the cache map: a stored `live_matches` entry is never
the empty list (both store sites store a non-empty list). -/
def cacheOk (cache : CacheState) : Prop :=
  ∀ d ts, cache = some (d, ts) → d ≠ []

end CricketApiService

/-! ### `parseAdvancedMatchData` (`services/cricketApi.ts`, lines 213-262) -/

namespace CricketApiService

/-- The flag lookup table of `generateTeamFlag` (lines 415-426). -/
def flagMap : List (String × String) :=
  [("india", "https://flagcdn.com/w40/in.png"),
   ("australia", "https://flagcdn.com/w40/au.png"),
   ("england", "https://flagcdn.com/w40/gb-eng.png"),
   ("pakistan", "https://flagcdn.com/w40/pk.png"),
   ("south africa", "https://flagcdn.com/w40/za.png"),
   ("new zealand", "https://flagcdn.com/w40/nz.png"),
   ("west indies", "https://flagcdn.com/w40/bb.png"),
   ("sri lanka", "https://flagcdn.com/w40/lk.png"),
   ("bangladesh", "https://flagcdn.com/w40/bd.png"),
   ("afghanistan", "https://flagcdn.com/w40/af.png")]

/-- Embeds `generateTeamFlag` (lines 411-430); its argument can be an absent
field, caught by the `if (!teamName)` guard. -/
def generateTeamFlag (teamName : Option String) : String :=
  if !jsTruthyS teamName then "/api/placeholder/32/32"
  else
    let key := jsToLower (teamName.getD "")
    match flagMap.find? fun p => p.1 = key with
    | some p => p.2
    | none => "/api/placeholder/32/32"

/-- Embeds `generateMatchImage` (lines 432-436). -/
def generateMatchImage (m : RawFCMatch) : String :=
  "/api/placeholder/400/200?text=" ++
    encodeURIComponent (jsOrD (jsOrS m.tournament_name m.series_name) "cricket")

/-- Embeds `extractStreamUrl` (lines 388-409). -/
def extractStreamUrl (m : RawFCMatch) : Option String :=
  let idBased :=
    if jsTruthyS (jsOrS m.id m.match_id) then
      some ("https://streaming.fancode.com/hls/" ++
        jsOrD (jsOrS m.id m.match_id) "" ++ "/playlist.m3u8")
    else none
  if jsTruthyS m.stream_url then m.stream_url
  else if jsTruthyS m.streamUrl then m.streamUrl
  else if jsTruthyS m.hls_url then m.hls_url
  else if jsTruthyS m.manifest_url then m.manifest_url
  else
    match m.streaming with
    | some st =>
      if jsTruthyS st.hls then st.hls
      else if jsTruthyS st.manifest then st.manifest
      else if jsTruthyS st.url then st.url
      else idBased
    | none => idBased

/-- Embeds `hasStreamingData` (lines 438-440). -/
def hasStreamingData (m : RawFCMatch) : Bool :=
  m.streaming.isSome || m.live_streaming || m.is_live || decide (m.status = some "live")

/-- The body of the `matchesArray.map` of `parseAdvancedMatchData`:
one raw object to one `CricketMatch`. -/
def parseOneFC (now : Int) (index : Nat) (m : RawFCMatch) : CricketMatch :=
  let streamUrl := extractStreamUrl m
  { id := jsOrD (jsOrS (jsOrS m.id m.match_id) m.unique_id) ("fc_" ++ toString index),
    title := jsOrD (jsOrS m.title m.name)
      (jsInterp (jsOrS m.team1_name m.teamDash1) ++ " vs " ++
       jsInterp (jsOrS m.team2_name m.teamDash2)),
    team1 :=
      { name := jsOrD (jsOrS (jsOrS m.team1_name m.teamDash1) m.teams0_name) "Team 1",
        shortName := jsOrD (jsOrS m.team1_short_name m.team1_shortName)
          (jsToUpper (jsTake (jsOrD (jsOrS m.team1_name m.teamDash1) "T1") 3)),
        flag := jsOrD (jsOrS m.team1_flag m.team1_logo)
          (generateTeamFlag (jsOrS m.team1_name m.teamDash1)) },
    team2 :=
      { name := jsOrD (jsOrS (jsOrS m.team2_name m.teamDash2) m.teams1_name) "Team 2",
        shortName := jsOrD (jsOrS m.team2_short_name m.team2_shortName)
          (jsToUpper (jsTake (jsOrD (jsOrS m.team2_name m.teamDash2) "T2") 3)),
        flag := jsOrD (jsOrS m.team2_flag m.team2_logo)
          (generateTeamFlag (jsOrS m.team2_name m.teamDash2)) },
    startTime := m.startChain.getD now,
    status := determineAdvancedStatus m now,
    tournament := jsOrD (jsOrS (jsOrS (jsOrS m.tournament_name m.series_name)
      m.competition_name) m.typeLabel) "Cricket Match",
    image := jsOrD (jsOrS (jsOrS m.image m.banner) m.poster) (generateMatchImage m),
    streamUrl := streamUrl,
    language := jsOrD m.language "ENGLISH",
    isStreamable := jsTruthyS streamUrl || hasStreamingData m }

/-- The `.map(...).filter(match => match.title && match.team1.name &&
match.team2.name)` of `parseAdvancedMatchData`, fused into one indexed
pass (`map` is pure, so mapping then filtering is the same). -/
def parseFCAux (now : Int) : Nat → List RawFCMatch → List CricketMatch
  | _, [] => []
  | index, m :: rest =>
    let c := parseOneFC now index m
    if c.title ≠ "" ∧ c.team1.name ≠ "" ∧ c.team2.name ≠ "" then
      c :: parseFCAux now (index + 1) rest
    else parseFCAux now (index + 1) rest

/-- Embeds `parseAdvancedMatchData` (lines 213-262), applied to the extracted
`matchesArray` (the surrounding code only dispatches on which field of
the response body holds that array). -/
def parseAdvancedMatchData (now : Int) (matchesArray : List RawFCMatch) :
    List CricketMatch :=
  parseFCAux now 0 matchesArray

end CricketApiService

/-! ### `parseMatchesFromHTML` (original-site service, lines 150-224)

The HTML scraping regexes are not re-implemented; each block carries
the capture groups its regexes produced, as oracles, and the code of the service, its
own filtering logic over those captures is embedded exactly.  One
genuine JavaScript behaviour matters: in `extractTeamData` the third
`teamPatterns` entry has no `g` flag, and `String.prototype.matchAll`
throws a `TypeError` on a non-global regex; the per-block `try/catch` in
`parseMatchesFromHTML` then drops the block.  Hence a block whose first
two patterns do not yield two team candidates produces no record, and
the `vsMatch` fallback and fourth pattern are unreachable. -/

namespace OriginalSiteApiService

/-- One scraped match block, as the capture groups its regexes
produced: `caps1`/`caps2` the group-1 captures of the first two
`teamPatterns`, the rest the captures of the other extractors
(`timeCapture` already parsed to epoch ms, as `parseStartTime` does;
text captures already trimmed where the source trims them). -/
structure MatchBlock where
  caps1 : List String := []
  caps2 : List String := []
  matchIdCapture : Option String := none
  titleCapture : Option String := none
  tournamentCapture : Option String := none
  isLiveMarker : Bool := false
  timeCapture : Option Int := none
  langCapture : Option String := none
  notStreamableMarker : Bool := false
  qualityCapture : Option String := none
  directUrlCapture : Option String := none
  thumbCapture : Option String := none
deriving DecidableEq, Repr

/-- The candidate filter of `extractTeamData`:
the source filter keeping candidates that are truthy, do not include the substring http, and have length strictly between 2 and 30, then sliced to the first two. -/
def teamCandFilter (l : List String) : List String :=
  (l.filter fun t =>
    decide (t ≠ "") && !(jsIncludes t "http") &&
    decide (jsLength t < 30) && decide (jsLength t > 2)).take 2

/-- Embeds `extractTeamData` (lines 247-297) over the pattern captures: the
first of the two global patterns whose filtered captures give two
teams; `none` when neither does (the block is then dropped by the
thrown `matchAll` TypeError, see the section comment). -/
def extractTeamData (b : MatchBlock) : Option (String × String) :=
  let e1 := teamCandFilter b.caps1
  if e1.length ≥ 2 then some (e1.headD "", e1.getD 1 "")
  else
    let e2 := teamCandFilter b.caps2
    if e2.length ≥ 2 then some (e2.headD "", e2.getD 1 "")
    else none

/-- The logo lookup table of `getTeamLogo` (lines 414-425). -/
def logoMap : List (String × String) :=
  [("india", "https://img1.hscicdn.com/image/upload/f_auto/lsci/db/PICTURES/CMS/316600/316654.png"),
   ("australia", "https://img1.hscicdn.com/image/upload/f_auto/lsci/db/PICTURES/CMS/316600/316655.png"),
   ("england", "https://img1.hscicdn.com/image/upload/f_auto/lsci/db/PICTURES/CMS/316600/316656.png"),
   ("pakistan", "https://img1.hscicdn.com/image/upload/f_auto/lsci/db/PICTURES/CMS/316600/316657.png"),
   ("south africa", "https://img1.hscicdn.com/image/upload/f_auto/lsci/db/PICTURES/CMS/316600/316658.png"),
   ("new zealand", "https://img1.hscicdn.com/image/upload/f_auto/lsci/db/PICTURES/CMS/316600/316659.png"),
   ("west indies", "https://img1.hscicdn.com/image/upload/f_auto/lsci/db/PICTURES/CMS/316600/316660.png"),
   ("sri lanka", "https://img1.hscicdn.com/image/upload/f_auto/lsci/db/PICTURES/CMS/316600/316661.png"),
   ("bangladesh", "https://img1.hscicdn.com/image/upload/f_auto/lsci/db/PICTURES/CMS/316600/316662.png"),
   ("afghanistan", "https://img1.hscicdn.com/image/upload/f_auto/lsci/db/PICTURES/CMS/316600/316663.png")]

/-- Embeds `getTeamLogo` (lines 413-429). -/
def getTeamLogo (teamName : String) : String :=
  match logoMap.find? fun p => p.1 = jsToLower teamName with
  | some p => p.2
  | none => "https://via.placeholder.com/50x50/orange/white?text=" ++ jsCharAt teamName 0

/-- Embeds `getTeamFlag` (lines 462-478): same table as the cricketApi one,
placeholder default. -/
def getTeamFlag (teamName : String) : String :=
  match CricketApiService.flagMap.find? fun p => p.1 = jsToLower teamName with
  | some p => p.2
  | none => "/api/placeholder/32/32"

/-- Embeds `constructStreamUrl` (lines 480-490): always the first of its three
candidate URLs. -/
def constructStreamUrl (matchId : String) : String :=
  "https://d2ao0uy6gqh4.cloudfront.net/fancode/matches/" ++ matchId ++ "/manifest.m3u8"

/-- The team objects `extractTeamData` builds from an extracted name. -/
def mkTeam (n : String) : Team :=
  { name := n, shortName := generateShortName n, flag := getTeamFlag n,
    logo := some (getTeamLogo n) }

/-- The record one block contributes (the body of the `matchBlocks.
forEach` push, lines 158-215), given the extracted team names. -/
def parseOneBlock (now : Int) (index : Nat) (b : MatchBlock) (t1 t2 : String) :
    CricketMatch :=
  let matchId := jsOrD b.matchIdCapture ("auto_" ++ toString now ++ "_" ++ toString index)
  let tournament := jsOrD b.tournamentCapture "Cricket Match"
  let startTime := b.timeCapture.getD now
  let isStreamable := !b.notStreamableMarker
  { id := "original_" ++ matchId,
    title := jsOrD b.titleCapture "Live Cricket Match",
    team1 := mkTeam t1,
    team2 := mkTeam t2,
    startTime := startTime,
    status := if b.isLiveMarker then .live else determineStatus startTime now,
    tournament := tournament,
    image := jsOrD b.thumbCapture
      ("https://via.placeholder.com/400x200/1a1a1a/ffffff?text=" ++
       encodeURIComponent tournament),
    streamUrl :=
      if jsTruthyS b.directUrlCapture then b.directUrlCapture
      else if isStreamable then some (constructStreamUrl matchId) else none,
    language := jsOrD (b.langCapture.map jsToUpper) "ENGLISH",
    isStreamable := isStreamable,
    quality := some (jsOrD b.qualityCapture "HD") }

def parseHTMLAux (now : Int) : Nat → List MatchBlock → List CricketMatch
  | _, [] => []
  | index, b :: rest =>
    match extractTeamData b with
    | some (t1, t2) => parseOneBlock now index b t1 t2 :: parseHTMLAux now (index + 1) rest
    | none => parseHTMLAux now (index + 1) rest

/-- Embeds `parseMatchesFromHTML` (lines 150-224) over the scraped blocks. -/
def parseMatchesFromHTML (now : Int) (blocks : List MatchBlock) : List CricketMatch :=
  parseHTMLAux now 0 blocks

end OriginalSiteApiService

/-! ### Concrete inputs used to refute claims -/

/-- A match whose id collides with the composite key of later
records. -/
def cexA : CricketMatch :=
  { id := "dup", title := "A", team1 := { name := "India", shortName := "IND", flag := "" },
    team2 := { name := "Australia", shortName := "AUS", flag := "" }, startTime := 0,
    status := .live, tournament := "T1", image := "", language := "EN",
    isStreamable := true }

/-- First record of a duplicate-key pair; its id equals `cexA.id`. -/
def cexB : CricketMatch :=
  { id := "dup", title := "B", team1 := { name := "England", shortName := "ENG", flag := "" },
    team2 := { name := "Pakistan", shortName := "PAK", flag := "" }, startTime := 0,
    status := .live, tournament := "T1", image := "", language := "EN",
    isStreamable := true }

/-- Second record of the duplicate-key pair, with a fresh id. -/
def cexC : CricketMatch :=
  { id := "c3", title := "C", team1 := { name := "England", shortName := "ENG", flag := "" },
    team2 := { name := "Pakistan", shortName := "PAK", flag := "" }, startTime := 0,
    status := .live, tournament := "T1", image := "", language := "EN",
    isStreamable := true }

/-! ## Theorems -/

/-! ### Character-case helper lemmas -/

theorem char_ofNat_toNat (n : Nat) (h : n < 55296) : (Char.ofNat n).toNat = n := by
  have hv : Nat.isValidChar n := Or.inl h
  rw [Char.ofNat, dif_pos hv]
  rfl

theorem char_val_le_iff (c : Char) (m : Nat) (hm : m < 4294967296) :
    (c.val ≤ UInt32.ofNat m) ↔ c.toNat ≤ m := by
  rw [UInt32.le_def, BitVec.le_def]
  rw [show (UInt32.ofNat m).toBitVec.toNat = m from UInt32.toBitVec_eq_of_lt hm]
  rfl

theorem char_val_ge_iff (c : Char) (m : Nat) (hm : m < 4294967296) :
    (c.val ≥ UInt32.ofNat m) ↔ m ≤ c.toNat := by
  rw [ge_iff_le, UInt32.le_def, BitVec.le_def]
  rw [show (UInt32.ofNat m).toBitVec.toNat = m from UInt32.toBitVec_eq_of_lt hm]
  rfl

/-- Applying `Char.toUpper` never produces a lowercase ASCII letter. -/
theorem toUpper_not_lower (c : Char) : (Char.toUpper c).isLower = false := by
  rw [Char.toUpper]
  by_cases h : 97 ≤ c.toNat ∧ c.toNat ≤ 122
  · rw [if_pos h]
    have h2 : (Char.ofNat (c.toNat - 32)).toNat = c.toNat - 32 := char_ofNat_toNat _ (by omega)
    simp only [Char.isLower, Bool.and_eq_false_iff, decide_eq_false_iff_not]
    left
    rw [show (97 : UInt32) = UInt32.ofNat 97 from rfl, char_val_ge_iff _ _ (by norm_num)]
    omega
  · rw [if_neg h]
    simp only [Char.isLower, Bool.and_eq_false_iff, decide_eq_false_iff_not]
    by_cases h97 : 97 ≤ c.toNat
    · right
      rw [show (122 : UInt32) = UInt32.ofNat 122 from rfl, char_val_le_iff _ _ (by norm_num)]
      omega
    · left
      rw [show (97 : UInt32) = UInt32.ofNat 97 from rfl, char_val_ge_iff _ _ (by norm_num)]
      omega

/-! ### Deduplication and sorting lemmas -/

namespace CricketApiService

theorem mem_dedupAux (x : CricketMatch) :
    ∀ (seen : List String) (l : List CricketMatch),
      x ∈ removeDuplicateMatchesAux seen l →
      seen.contains (matchKey x) = false ∧ seen.contains x.id = false := by
  intro seen l
  induction l generalizing seen with
  | nil => intro h; simp [removeDuplicateMatchesAux] at h
  | cons m rest ih =>
    intro hx
    rw [removeDuplicateMatchesAux] at hx
    by_cases hc : !(seen.contains (matchKey m)) && !(seen.contains m.id)
    · rw [if_pos hc] at hx
      rcases List.mem_cons.mp hx with h | h
      · subst h
        simp only [Bool.and_eq_true, Bool.not_eq_true'] at hc
        exact ⟨hc.1, hc.2⟩
      · have h2 := ih _ h
        simp only [List.contains_cons, Bool.or_eq_false_iff] at h2
        exact ⟨h2.1.2.2, h2.2.2.2⟩
    · rw [if_neg hc] at hx
      exact ih _ hx

theorem pairwise_dedupAux :
    ∀ (seen : List String) (l : List CricketMatch),
      (removeDuplicateMatchesAux seen l).Pairwise
        (fun a b => matchKey a ≠ matchKey b ∧ a.id ≠ b.id) := by
  intro seen l
  induction l generalizing seen with
  | nil => simp [removeDuplicateMatchesAux]
  | cons m rest ih =>
    rw [removeDuplicateMatchesAux]
    by_cases hc : !(seen.contains (matchKey m)) && !(seen.contains m.id)
    · rw [if_pos hc]
      refine List.Pairwise.cons ?_ (ih _)
      intro y hy
      have h := mem_dedupAux y _ _ hy
      simp only [List.contains_cons, Bool.or_eq_false_iff, beq_eq_false_iff_ne] at h
      exact ⟨fun he => h.1.2.1 he.symm, fun he => h.2.1 he.symm⟩
    · rw [if_neg hc]
      exact ih _

theorem sortByStatusPriority_perm (l : List CricketMatch) :
    (sortByStatusPriority l).Perm l := by
  unfold sortByStatusPriority
  have e1 : (l.filter (fun m => !decide (m.status = .live))).filter
      (fun m => decide (m.status = .upcoming)) = l.filter (fun m => decide (m.status = .upcoming)) := by
    rw [List.filter_filter]
    apply List.filter_congr
    intro m _
    cases m.status <;> simp
  have e2 : (l.filter (fun m => !decide (m.status = .live))).filter
      (fun m => !decide (m.status = .upcoming)) = l.filter (fun m => decide (m.status = .completed)) := by
    rw [List.filter_filter]
    apply List.filter_congr
    intro m _
    cases m.status <;> simp
  have h2 : List.Perm
      (l.filter (fun m => decide (m.status = .upcoming)) ++
        l.filter (fun m => decide (m.status = .completed)))
      (l.filter (fun m => !decide (m.status = .live))) := by
    rw [← e1, ← e2]
    exact List.filter_append_perm _ _
  rw [List.append_assoc]
  exact (List.Perm.append_left _ h2).trans (List.filter_append_perm _ _)

theorem sortByStatusPriority_sorted (l : List CricketMatch) :
    (sortByStatusPriority l).Pairwise
      (fun a b => statusPriority a.status ≤ statusPriority b.status) := by
  unfold sortByStatusPriority
  rw [List.append_assoc, List.pairwise_append, List.pairwise_append]
  refine ⟨?_, ⟨?_, ?_, ?_⟩, ?_⟩
  · apply List.pairwise_of_forall_mem_list
    intro a ha b hb
    rw [List.mem_filter] at ha hb
    simp only [decide_eq_true_eq] at ha hb
    rw [ha.2, hb.2]
  · apply List.pairwise_of_forall_mem_list
    intro a ha b hb
    rw [List.mem_filter] at ha hb
    simp only [decide_eq_true_eq] at ha hb
    rw [ha.2, hb.2]
  · apply List.pairwise_of_forall_mem_list
    intro a ha b hb
    rw [List.mem_filter] at ha hb
    simp only [decide_eq_true_eq] at ha hb
    rw [ha.2, hb.2]
  · intro a ha b hb
    rw [List.mem_filter] at ha hb
    simp only [decide_eq_true_eq] at ha hb
    rw [ha.2, hb.2]
    simp [statusPriority]
  · intro a ha b hb
    rw [List.mem_filter] at ha
    rcases List.mem_append.mp hb with h | h <;> rw [List.mem_filter] at h <;>
      simp only [decide_eq_true_eq] at ha h <;> rw [ha.2, h.2] <;> simp [statusPriority]

end CricketApiService

/-! ### Generic list helper lemmas -/

theorem filter_length_pos_iff_any {α} (p : α → Bool) (l : List α) :
    0 < (l.filter p).length ↔ l.any p = true := by
  induction l with
  | nil => simp
  | cons a t ih => by_cases hp : p a <;> simp [hp, ih]

theorem any_and_comm {α} (l : List α) (p q : α → Bool) :
    l.any (fun a => p a && q a) = l.any (fun a => q a && p a) := by
  induction l with
  | nil => rfl
  | cons a t ih => simp only [List.any_cons, ih, Bool.and_comm]

/-! ### String helper lemmas -/

theorem jsLength_jsToUpper (s : String) : jsLength (jsToUpper s) = jsLength s := by
  simp [jsLength, jsToUpper]

theorem jsLength_jsTake (s : String) (n : Nat) : jsLength (jsTake s n) ≤ n := by
  simp only [jsLength, jsTake, List.length_take]
  exact Nat.min_le_left _ _

theorem noLower_jsToUpper (s : String) : NoLowercase (jsToUpper s) := by
  intro c hc
  simp only [jsToUpper] at hc
  rcases List.mem_map.mp hc with ⟨a, _, rfl⟩
  exact toUpper_not_lower a

theorem jsLength_append (s t : String) :
    jsLength (s ++ t) = jsLength s + jsLength t := by
  simp [jsLength]

theorem noLower_append {s t : String} (hs : NoLowercase s) (ht : NoLowercase t) :
    NoLowercase (s ++ t) := by
  intro c hc
  rw [String.data_append] at hc
  rcases List.mem_append.mp hc with h | h
  · exact hs c h
  · exact ht c h

theorem jsLength_jsJoin_le (l : List String) (h : ∀ x ∈ l, jsLength x ≤ 1) :
    jsLength (jsJoin l) ≤ l.length := by
  induction l with
  | nil => simp [jsJoin, jsLength]
  | cons a t ih =>
    have ha := h a (List.mem_cons_self a t)
    have ht := ih fun x hx => h x (List.mem_cons_of_mem a hx)
    simp only [jsJoin, jsLength, List.map_cons, List.flatten_cons,
      List.length_append, List.length_cons] at *
    omega

theorem noLower_jsJoin (l : List String) (h : ∀ x ∈ l, NoLowercase x) :
    NoLowercase (jsJoin l) := by
  intro c hc
  simp only [jsJoin, List.mem_flatten, List.mem_map] at hc
  rcases hc with ⟨d, ⟨x, hx, rfl⟩, hcd⟩
  exact h x hx c hcd

theorem jsLength_jsCharAt (s : String) (n : Nat) : jsLength (jsCharAt s n) ≤ 1 := by
  simp only [jsLength, jsCharAt, List.length_take]
  exact Nat.min_le_left _ _

theorem jsIndexStr_length_of_lt (s : String) (n : Nat) (h : n < s.data.length) :
    jsLength (jsIndexStr s n) = 1 := by
  simp only [jsIndexStr, if_pos h, jsLength, List.length_take, List.length_drop]
  omega

theorem mem_jsSplitWs_ne (s x : String) (hs : s ≠ "") (hx : x ∈ jsSplitWs s) :
    x ≠ "" := by
  simp only [jsSplitWs, if_neg hs, List.mem_filter, decide_eq_true_eq] at hx
  exact hx.2

theorem jsSplitWs_length_ne_one (s : String) (h : (jsSplitWs s).length ≠ 1) :
    s ≠ "" := by
  intro he
  apply h
  rw [he]
  rfl

/-! ### C1: status classification -/

open CricketApiService OriginalSiteApiService in
/-- C1, counterexample: the claim asserts the 8-hour time-window rule of
the status-determination functions it cites, but `determineStatus` of
the original-site service uses a different window.  For a match that
started 4 hours ago (start = -14400000 ms, now = 0) the claimed rule
yields `live` (start ≤ now ≤ start + 8 h) while `determineStatus`
returns `completed`. -/
theorem c1_window_counterexample :
    determineStatus (-14400000) 0 = .completed ∧
    claimTimeWindowRule (-14400000) 0 = .live := by
  constructor <;> decide

open CricketApiService OriginalSiteApiService in
/-- C1, amended: both status functions are total over
{live, upcoming, completed}; `determineAdvancedStatus` follows the
claimed rule — explicit status fields take precedence (live-type
fields first, then completed-type, then upcoming-type), and with
no explicit field deciding it, the 8-hour window applies exactly as the
claim states; `determineStatus` of the original-site service instead
returns `live` iff the start lies within (now - 3 h, now + 1 h) and
`completed` iff it is more than 3 hours in the past. -/
theorem c1_status_classification (m : RawFCMatch) (now t : Int) :
    (determineAdvancedStatus m now = .live ∨ determineAdvancedStatus m now = .upcoming ∨
      determineAdvancedStatus m now = .completed) ∧
    ((m.status = some "live" ∨ m.status = some "LIVE" ∨ m.is_live ∨ m.live) →
      determineAdvancedStatus m now = .live) ∧
    (¬(m.status = some "live" ∨ m.status = some "LIVE" ∨ m.is_live ∨ m.live) →
     (m.status = some "completed" ∨ m.status = some "COMPLETED" ∨ m.finished ∨ m.match_ended) →
      determineAdvancedStatus m now = .completed) ∧
    (¬(m.status = some "live" ∨ m.status = some "LIVE" ∨ m.is_live ∨ m.live) →
     ¬(m.status = some "completed" ∨ m.status = some "COMPLETED" ∨ m.finished ∨ m.match_ended) →
     ¬(m.status = some "upcoming" ∨ m.status = some "UPCOMING" ∨ m.scheduled) →
     m.startChain = some t →
      determineAdvancedStatus m now = claimTimeWindowRule t now) ∧
    (∀ s n : Int,
      (determineStatus s n = .live ↔ -10800000 < s - n ∧ s - n < 3600000) ∧
      (determineStatus s n = .completed ↔ s - n < -10800000)) := by
  have hdur : matchDuration = 28800000 := by norm_num [matchDuration]
  refine ⟨?_, ?_, ?_, ?_, ?_⟩
  · unfold determineAdvancedStatus
    split_ifs <;> try simp
    cases hc : m.startChain with
    | none => simp
    | some t0 => dsimp only; split_ifs <;> simp
  · intro h
    unfold determineAdvancedStatus
    rw [if_pos h]
  · intro h1 h2
    unfold determineAdvancedStatus
    rw [if_neg h1, if_pos h2]
  · intro h1 h2 h3 hsc
    unfold determineAdvancedStatus claimTimeWindowRule
    rw [if_neg h1, if_neg h2, if_neg h3, hsc, hdur]
  · intro s n
    unfold determineStatus
    split_ifs with h1 h2 <;> refine ⟨⟨fun he => ?_, fun hc => ?_⟩, ⟨fun he => ?_, fun hc => ?_⟩⟩ <;>
      simp_all <;> omega

/-- Witness for C1 at a concrete input: no explicit status field, start
time 0, now one hour later — the time window yields `live`. -/
theorem c1_status_classification_witness :
    CricketApiService.determineAdvancedStatus { start_time := some 0 } 3600000 = .live := by
  have h := (c1_status_classification { start_time := some 0 } 3600000 0).2.2.2.1
    (by simp) (by simp) (by simp) (by simp [RawFCMatch.startChain, jsOrI])
  rw [h]
  decide

/-! ### C4: deduplication -/

open CricketApiService in
/-- C4, counterexample: the claim says that of two records with the
same composite key but different ids only the *first* appears in the
output.  With `cexA` first (whose id equals the key-collision id
"dup"), `cexB` — the first record with key "england-pakistan-t1" — is
dropped because its id was already seen, its key is never recorded, and
the *second* record `cexC` with that key is kept. -/
theorem c4_dedup_counterexample :
    matchKey cexB = matchKey cexC ∧ cexB.id ≠ cexC.id ∧
    removeDuplicateMatches [cexA, cexB, cexC] = [cexA, cexC] ∧
    cexB ∉ removeDuplicateMatches [cexA, cexB, cexC] ∧
    cexC ∈ removeDuplicateMatches [cexA, cexB, cexC] := by
  refine ⟨by decide, by decide, by decide, by decide, by decide⟩

open CricketApiService in
/-- C4 (amended): no composite key and no id occurs twice in the output
of `removeDuplicateMatches`; and when the input consists of exactly two
records with the same composite key (the scenario of the spec), the first is
the one retained.  (In longer inputs an earlier record whose id equals
the key of the duplicates can divert which duplicate is kept, as
`c4_dedup_counterexample` shows.) -/
theorem c4_dedup_unique (ms : List CricketMatch) :
    (removeDuplicateMatches ms).Pairwise
      (fun a b => matchKey a ≠ matchKey b ∧ a.id ≠ b.id) ∧
    (∀ a b : CricketMatch, matchKey a = matchKey b →
      removeDuplicateMatches [a, b] = [a]) := by
  constructor
  · have hsym : ∀ {x y : CricketMatch},
        (matchKey x ≠ matchKey y ∧ x.id ≠ y.id) →
        (matchKey y ≠ matchKey x ∧ y.id ≠ x.id) :=
      fun h => ⟨fun e => h.1 e.symm, fun e => h.2 e.symm⟩
    exact (List.Perm.pairwise_iff hsym (sortByStatusPriority_perm _)).mpr
      (pairwise_dedupAux [] ms)
  · intro a b hk
    have h1 : removeDuplicateMatchesAux [] [a, b] = [a] := by
      rw [removeDuplicateMatchesAux]
      rw [if_pos (by simp)]
      rw [removeDuplicateMatchesAux]
      rw [if_neg (by simp [← hk])]
      rfl
    unfold removeDuplicateMatches
    rw [h1]
    cases hst : a.status <;> simp [sortByStatusPriority, hst]

open CricketApiService in
/-- Witness for C4 (amended) at a concrete input: two records sharing a
composite key — the first is retained. -/
theorem c4_dedup_unique_witness :
    removeDuplicateMatches [cexB, cexC] = [cexB] :=
  (c4_dedup_unique []).2 cexB cexC (by decide)

/-! ### C9: output sorted by status priority -/

open CricketApiService in
/-- C9: the list `removeDuplicateMatches` returns is sorted by status
priority — every `live` record precedes every `upcoming` record, which
precedes every `completed` record (pairwise, the priority 0/1/2 of an
earlier record never exceeds that of a later one). -/
theorem c9_sorted_by_status (ms : List CricketMatch) :
    (removeDuplicateMatches ms).Pairwise
      (fun a b => statusPriority a.status ≤ statusPriority b.status) := by
  unfold removeDuplicateMatches
  exact sortByStatusPriority_sorted _

/-! ### C5: refresh-interval selection -/

open CricketApiService in
/-- C5: `getRefreshInterval` returns 10000 ms when some match is live,
otherwise 15000 ms when some upcoming match starts strictly in the
future and less than 30 minutes away, otherwise 30000 ms. -/
theorem c5_refresh_interval (ms : List CricketMatch) (now : Int) :
    getRefreshInterval ms now =
      if ms.any (fun m => decide (m.status = .live)) then 10000
      else if ms.any (fun m => decide (m.status = .upcoming) &&
          decide (m.startTime - now > 0 ∧ m.startTime - now < 30 * 60 * 1000)) then 15000
      else 30000 := by
  simp only [getRefreshInterval]
  by_cases hL : ms.any (fun m => decide (m.status = .live)) = true
  · rw [if_pos ((filter_length_pos_iff_any _ _).mpr hL), if_pos hL]
  · rw [if_neg (fun hp => hL ((filter_length_pos_iff_any _ _).mp hp)),
      if_neg (fun h => hL h)]
    have hsoon : ((ms.filter fun m => decide (m.status = .upcoming)).filter
        (fun m => decide (m.startTime - now > 0 ∧ m.startTime - now < 30 * 60 * 1000))) =
        ms.filter fun m => decide (m.status = .upcoming) &&
          decide (m.startTime - now > 0 ∧ m.startTime - now < 30 * 60 * 1000) := by
      rw [List.filter_filter]
      exact List.filter_congr fun m _ => Bool.and_comm _ _
    by_cases hS : ms.any (fun m => decide (m.status = .upcoming) &&
        decide (m.startTime - now > 0 ∧ m.startTime - now < 30 * 60 * 1000)) = true
    · have hSpos := (filter_length_pos_iff_any _ ms).mpr hS
      have hU : ms.any (fun m => decide (m.status = .upcoming)) = true := by
        rcases List.any_eq_true.mp hS with ⟨x, hx, hpx⟩
        rw [Bool.and_eq_true] at hpx
        exact List.any_eq_true.mpr ⟨x, hx, hpx.1⟩
      rw [if_pos ((filter_length_pos_iff_any _ _).mpr hU), hsoon,
        if_pos hSpos, if_pos hS]
    · rw [if_neg (fun h => hS h)]
      by_cases hU : ms.any (fun m => decide (m.status = .upcoming)) = true
      · rw [if_pos ((filter_length_pos_iff_any _ _).mpr hU), hsoon,
          if_neg (fun hp => hS ((filter_length_pos_iff_any _ _).mp hp))]
      · rw [if_neg (fun hp => hU ((filter_length_pos_iff_any _ _).mp hp))]

/-! ### C6: short-name generation -/

/-- C6, counterexample: the original-site `generateShortName` evaluates
`words[1][1]` on the two-word name "Team B"; the second word has one
character, the index yields `undefined`, and concatenation stringifies
it: the result is "TBUNDEFINED", of length 11 > 4. -/
theorem c6_short_name_counterexample :
    OriginalSiteApiService.generateShortName "Team B" = "TBUNDEFINED" ∧
    4 < jsLength (OriginalSiteApiService.generateShortName "Team B") := by
  constructor <;> decide

/-- C6 (amended): both `generateShortName` functions are pure, and the
cricketApi version always returns an all-uppercase string of length at
most 4; the original-site version does too, provided that when the
(trimmed, whitespace-split) name has exactly two words the second word
has at least two characters — with a one-character second word it
returns the 11-character "…UNDEFINED" string instead. -/
theorem c6_short_name (name : String) :
    (jsLength (CricketApiService.generateShortName name) ≤ 4 ∧
      NoLowercase (CricketApiService.generateShortName name)) ∧
    (((jsSplitWs (jsTrim name)).length = 2 →
        2 ≤ jsLength ((jsSplitWs (jsTrim name)).getD 1 "")) →
      jsLength (OriginalSiteApiService.generateShortName name) ≤ 4 ∧
        NoLowercase (OriginalSiteApiService.generateShortName name)) := by
  constructor
  · simp only [CricketApiService.generateShortName]
    split_ifs with h1 h2 h3 h4
    · exact ⟨by decide, by decide⟩
    · refine ⟨?_, noLower_jsToUpper _⟩
      have h := jsLength_jsTake ((jsSplitChar name ' ').headD "") 3
      rw [jsLength_jsToUpper]
      omega
    · constructor
      · rw [jsLength_append, jsLength_jsToUpper]
        have := jsLength_jsTake (jsTrim (jsReplaceFirst name "Women" "")) 3
        have hW : jsLength "W" = 1 := rfl
        omega
      · exact noLower_append (noLower_jsToUpper _) (by decide)
    · constructor
      · refine le_trans (jsLength_jsJoin_le _ ?_) ?_
        · intro x hx
          rcases List.mem_map.mp hx with ⟨w, _, rfl⟩
          rw [jsLength_jsToUpper]
          exact jsLength_jsCharAt w 0
        · rw [List.length_map]
          have := List.length_take_le 3 ((jsSplitChar name ' ').filter fun w =>
            !(["A", "vs", "and", "the", "of"].contains w))
          omega
      · refine noLower_jsJoin _ ?_
        intro x hx
        rcases List.mem_map.mp hx with ⟨w, _, rfl⟩
        exact noLower_jsToUpper _
    · refine ⟨?_, noLower_jsToUpper _⟩
      have h := jsLength_jsTake name 3
      rw [jsLength_jsToUpper]
      omega
  · intro hcond
    simp only [OriginalSiteApiService.generateShortName]
    split_ifs with h1 h2 h3
    · exact ⟨by decide, by decide⟩
    · refine ⟨?_, noLower_jsToUpper _⟩
      have h := jsLength_jsTake ((jsSplitWs (jsTrim name)).headD "") 3
      rw [jsLength_jsToUpper]
      omega
    · have hs : jsTrim name ≠ "" := jsSplitWs_length_ne_one _ (by omega)
      rcases List.length_eq_two.mp h3 with ⟨a, b, hab⟩
      have ha : a ≠ "" := mem_jsSplitWs_ne _ _ hs (by rw [hab]; exact List.mem_cons_self _ _)
      have hb2 : 2 ≤ jsLength b := by
        have h := hcond h3
        rw [hab] at h
        exact h
      have hadata : 0 < a.data.length := by
        cases hd : a.data with
        | nil => exact absurd (by cases a; simp_all) ha
        | cons c cs => simp
      refine ⟨?_, noLower_jsToUpper _⟩
      rw [hab]
      show jsLength (jsToUpper (jsIndexStr a 0 ++ jsIndexStr b 0 ++ jsIndexStr b 1)) ≤ 4
      rw [jsLength_jsToUpper, jsLength_append, jsLength_append]
      rw [jsIndexStr_length_of_lt a 0 hadata]
      rw [jsIndexStr_length_of_lt b 0 (by simp only [jsLength] at hb2; omega)]
      rw [jsIndexStr_length_of_lt b 1 (by simp only [jsLength] at hb2; omega)]
      omega
    · refine ⟨?_, noLower_jsToUpper _⟩
      have hs : jsTrim name ≠ "" := jsSplitWs_length_ne_one _ (by omega)
      rw [jsLength_jsToUpper]
      refine le_trans (jsLength_jsJoin_le _ ?_) ?_
      · intro x hx
        rcases List.mem_map.mp hx with ⟨w, hw, rfl⟩
        have hw2 : w ∈ jsSplitWs (jsTrim name) := List.take_subset _ _ hw
        have hne : w ≠ "" := mem_jsSplitWs_ne _ _ hs hw2
        have hwdata : 0 < w.data.length := by
          cases hd : w.data with
          | nil => exact absurd (by cases w; simp_all) hne
          | cons c cs => simp
        rw [jsIndexStr_length_of_lt w 0 hwdata]
      · rw [List.length_map]
        have := List.length_take_le 3 (jsSplitWs (jsTrim name))
        omega

/-- Witness for C6 at a concrete input: "New Zealand" satisfies the
two-word proviso, and both abbreviations are short. -/
theorem c6_short_name_witness :
    jsLength (CricketApiService.generateShortName "New Zealand") ≤ 4 ∧
    jsLength (OriginalSiteApiService.generateShortName "New Zealand") ≤ 4 := by
  have h := c6_short_name "New Zealand"
  exact ⟨h.1.1, (h.2 (by decide)).1⟩

/-! ### C10: generic proxied-URL list -/

open CorsProxy in
/-- C10: for a URL containing neither "sonyliv.com" nor
"dai.google.com", `getProxiedUrls` returns exactly five candidates: the
original URL first, then the percent-encoded URL appended to each of the
four generic proxy prefixes in declaration order. -/
theorem c10_proxied_urls (url : String)
    (h1 : jsIncludes url "sonyliv.com" = false)
    (h2 : jsIncludes url "dai.google.com" = false) :
    getProxiedUrls url =
      [url,
       "https://cors-anywhere.herokuapp.com/" ++ encodeURIComponent url,
       "https://api.allorigins.win/raw?url=" ++ encodeURIComponent url,
       "https://corsproxy.io/?" ++ encodeURIComponent url,
       "https://cors-proxy.fringe.zone/" ++ encodeURIComponent url] ∧
    (getProxiedUrls url).length = 5 ∧
    (getProxiedUrls url).headD "" = url := by
  have hb : (jsIncludes url "sonyliv.com" || jsIncludes url "dai.google.com") = false := by
    rw [h1, h2]
    rfl
  unfold getProxiedUrls
  rw [hb]
  exact ⟨rfl, rfl, rfl⟩

/-- Witness for C10 at a concrete URL without the special-cased
substrings. -/
theorem c10_proxied_urls_witness :
    (CorsProxy.getProxiedUrls "https://example.com/a.m3u8").length = 5 ∧
    (CorsProxy.getProxiedUrls "https://example.com/a.m3u8").headD "" =
      "https://example.com/a.m3u8" := by
  have h := c10_proxied_urls "https://example.com/a.m3u8" (by decide) (by decide)
  exact ⟨h.2.1, h.2.2⟩

/-! ### C2: stream-URL resolution priority -/

namespace CricketApiService

theorem probeProxies_iff (probe : String → ProbeResult) (u : String) :
    ∀ l : List String, probeProxies probe u l = true ↔
      ∃ p ∈ l, probe (p ++ encodeURIComponent u) = .ok 200 := by
  intro l
  induction l with
  | nil => simp [probeProxies]
  | cons a t ih =>
    cases hp : probe (a ++ encodeURIComponent u) with
    | err =>
      rw [probeProxies, hp]
      simp only [ih, List.mem_cons]
      constructor
      · rintro ⟨p, hpm, hp200⟩
        exact ⟨p, Or.inr hpm, hp200⟩
      · rintro ⟨p, hpm | hpm, hp200⟩
        · rw [hpm] at hp200
          rw [hp] at hp200
          cases hp200
        · exact ⟨p, hpm, hp200⟩
    | ok s =>
      rw [probeProxies, hp]
      dsimp only
      by_cases h200 : s = 200
      · subst h200
        constructor
        · intro _
          exact ⟨a, List.mem_cons_self _ _, hp⟩
        · intro _
          rw [if_pos rfl]
      · rw [if_neg h200]
        simp only [ih, List.mem_cons]
        constructor
        · rintro ⟨p, hpm, hp200⟩
          exact ⟨p, Or.inr hpm, hp200⟩
        · rintro ⟨p, hpm | hpm, hp200⟩
          · rw [hpm, hp] at hp200
            exact absurd (ProbeResult.ok.inj hp200) h200
          · exact ⟨p, hpm, hp200⟩

theorem candidateSucceeds_iff (probe : String → ProbeResult) (u : String) :
    candidateSucceeds probe u = true ↔
      (probe u = .ok 200 ∨ (probe u = .err ∧
        ∃ p ∈ CORS_PROXIES, probe (p ++ encodeURIComponent u) = .ok 200)) := by
  cases hp : probe u with
  | err =>
    rw [candidateSucceeds, hp, probeProxies_iff]
    simp [hp]
  | ok s =>
    rw [candidateSucceeds, hp]
    by_cases h200 : s = 200
    · subst h200
      simp
    · simp only [if_neg h200]
      constructor
      · intro h
        cases h
      · rintro (h | ⟨h, _⟩)
        · exact absurd (ProbeResult.ok.inj h) h200
        · cases h

theorem getStreamUrlLoop_eq_find (probe : String → ProbeResult) :
    ∀ l : List String, getStreamUrlLoop probe l = l.find? (candidateSucceeds probe) := by
  intro l
  induction l with
  | nil => rfl
  | cons a t ih =>
    by_cases hc : candidateSucceeds probe a = true
    · rw [getStreamUrlLoop, if_pos hc, List.find?_cons_of_pos _ hc]
    · rw [getStreamUrlLoop, if_neg hc, ih,
        List.find?_cons_of_neg _ (Bool.not_eq_true _ ▸ hc)]

end CricketApiService

open CricketApiService StreamModal in
/-- C2: the stream resolver picks `adfree_url` when present (and
non-empty, JS truthiness), else `dai_url`, else the stored
`streamUrl` of the match, else it calls `getStreamUrl`, which probes the four
constructed manifest candidates in order — a candidate is accepted on a
direct HEAD answering 200, or, when the direct HEAD rejects, on some
CORS proxy answering 200 — returning the first accepted candidate, and
one of the four demo videos (chosen by `Math.random`) when none is. -/
theorem c2_stream_priority (m : StreamMatch) (probe : String → ProbeResult)
    (rand : Fin 4) :
    (∀ u, m.adfree_url = some u → u ≠ "" → fetchStreamUrl m probe rand = u) ∧
    (jsTruthyS m.adfree_url = false → ∀ u, m.dai_url = some u → u ≠ "" →
      fetchStreamUrl m probe rand = u) ∧
    (jsTruthyS m.adfree_url = false → jsTruthyS m.dai_url = false →
      ∀ u, m.streamUrl = some u → u ≠ "" → fetchStreamUrl m probe rand = u) ∧
    (jsTruthyS m.adfree_url = false → jsTruthyS m.dai_url = false →
      jsTruthyS m.streamUrl = false →
      fetchStreamUrl m probe rand = getStreamUrl (jsOrD m.match_id m.id) probe rand) ∧
    (∀ matchId : String,
      (streamSources matchId).length = 4 ∧
      getStreamUrl matchId probe rand =
        match (streamSources matchId).find? (candidateSucceeds probe) with
        | some u => u
        | none => demoStreams.get ⟨rand.val, rand.isLt⟩) ∧
    (∀ u, candidateSucceeds probe u = true ↔
      (probe u = .ok 200 ∨ (probe u = .err ∧
        ∃ p ∈ CORS_PROXIES, probe (p ++ encodeURIComponent u) = .ok 200))) := by
  refine ⟨?_, ?_, ?_, ?_, ?_, fun u => candidateSucceeds_iff probe u⟩
  · intro u hu hne
    have ht : jsTruthyS m.adfree_url = true := by simp [jsTruthyS, hu, hne]
    rw [fetchStreamUrl, if_pos ht, hu]
    rfl
  · intro h1 u hu hne
    have ht : jsTruthyS m.dai_url = true := by simp [jsTruthyS, hu, hne]
    rw [fetchStreamUrl, if_neg (by rw [h1]; exact Bool.false_ne_true), if_pos ht, hu]
    rfl
  · intro h1 h2 u hu hne
    have ht : jsTruthyS m.streamUrl = true := by simp [jsTruthyS, hu, hne]
    rw [fetchStreamUrl, if_neg (by rw [h1]; exact Bool.false_ne_true),
      if_neg (by rw [h2]; exact Bool.false_ne_true), if_pos ht, hu]
    rfl
  · intro h1 h2 h3
    rw [fetchStreamUrl, if_neg (by rw [h1]; exact Bool.false_ne_true),
      if_neg (by rw [h2]; exact Bool.false_ne_true),
      if_neg (by rw [h3]; exact Bool.false_ne_true)]
  · intro matchId
    refine ⟨rfl, ?_⟩
    rw [getStreamUrl, getStreamUrlLoop_eq_find]

/-- Witness for C2 at a concrete input: a match with an `adfree_url`
resolves to it. -/
theorem c2_stream_priority_witness :
    StreamModal.fetchStreamUrl { adfree_url := some "https://x.m3u8", id := "1" }
      (fun _ => ProbeResult.err) 0 = "https://x.m3u8" :=
  (c2_stream_priority _ _ _).1 "https://x.m3u8" rfl (by decide)

/-! ### C3: `fetchLiveMatches` never surfaces a failure -/

namespace CricketApiService

theorem getCachedData_ne_nil {cache : CacheState} {now : Int} {d : List CricketMatch}
    (h : cacheOk cache) (hc : getCachedData cache now = some d) : d ≠ [] := by
  cases cache with
  | none => simp [getCachedData] at hc
  | some p =>
    obtain ⟨data, ts⟩ := p
    rw [getCachedData] at hc
    split_ifs at hc with hlt
    exact Option.some.inj hc ▸ h data ts rfl

theorem mock_ne_nil (now : Int) : getEnhancedMockMatches now ≠ [] := by
  simp [getEnhancedMockMatches]

end CricketApiService

open CricketApiService in
/-- C3: every execution path of `fetchLiveMatches` — cache hit, live
data, no data at all (all sources failed), or a thrown exception —
returns `success = true` with a non-empty match list, substituting the
static mock matches when no live data was obtained; and the cache never
stores an empty list (so the cache-hit path stays non-empty across
calls). -/
theorem c3_fetch_never_fails (cache : CacheState) (now : Int)
    (outcomes : List SettledOutcome) (threw : Bool) (h : cacheOk cache) :
    (fetchLiveMatches cache now outcomes threw).success = true ∧
    (fetchLiveMatches cache now outcomes threw).data ≠ [] ∧
    cacheOk (fetchLiveMatches cache now outcomes threw).cache := by
  rw [fetchLiveMatches]
  by_cases ht : threw = true
  · rw [if_pos ht]
    exact ⟨rfl, mock_ne_nil now, h⟩
  · rw [if_neg ht]
    cases hc : getCachedData cache now with
    | some d =>
      exact ⟨rfl, getCachedData_ne_nil h hc, h⟩
    | none =>
      dsimp only
      by_cases hu : (removeDuplicateMatches (collectMatches outcomes)).length > 0
      · rw [if_pos hu]
        refine ⟨rfl, List.length_pos.mp hu, ?_⟩
        intro d ts he
        have h2 := Option.some.inj he
        have hd : d = removeDuplicateMatches (collectMatches outcomes) :=
          (congrArg Prod.fst h2).symm
        rw [hd]
        exact List.length_pos.mp hu
      · rw [if_neg hu]
        refine ⟨rfl, mock_ne_nil now, ?_⟩
        intro d ts he
        have h2 := Option.some.inj he
        have hd : d = getEnhancedMockMatches now := (congrArg Prod.fst h2).symm
        rw [hd]
        exact mock_ne_nil now

/-- Witness for C3 at a concrete input: empty cache, no sources — the
response still succeeds with a non-empty (mock) list. -/
theorem c3_fetch_never_fails_witness :
    (CricketApiService.fetchLiveMatches none 0 [] false).success = true ∧
    (CricketApiService.fetchLiveMatches none 0 [] false).data ≠ [] := by
  have h := c3_fetch_never_fails none 0 [] false (fun d ts he => nomatch he)
  exact ⟨h.1, h.2.1⟩

/-! ### C7: cache expiry -/

namespace CricketApiService

theorem fetch_stores (cache : CacheState) (now : Int) (rs : List SettledOutcome)
    (hc : getCachedData cache now = none) :
    (fetchLiveMatches cache now rs false).cache =
      some ((fetchLiveMatches cache now rs false).data, now) := by
  rw [fetchLiveMatches, if_neg (by simp), hc]
  dsimp only
  by_cases hu : (removeDuplicateMatches (collectMatches rs)).length > 0
  · rw [if_pos hu]
  · rw [if_neg hu]

theorem fetch_fetched {cache : CacheState} {now : Int} {rs : List SettledOutcome}
    (hc : getCachedData cache now = none) :
    (fetchLiveMatches cache now rs false).fetched = true := by
  rw [fetchLiveMatches, if_neg (by simp), hc]
  dsimp only
  by_cases hu : (removeDuplicateMatches (collectMatches rs)).length > 0
  · rw [if_pos hu]
  · rw [if_neg hu]

end CricketApiService

open CricketApiService in
/-- C7: when a first `fetchLiveMatches` call at time `t1` misses the
cache and stores its result, a second call strictly less than
`CACHE_DURATION` (15000 ms) later performs no fetch and returns the very
data the first call stored, while a second call at least 15000 ms later
ignores the cached entry and fetches again. -/
theorem c7_cache_expiry (cache0 : CacheState) (t1 t2 : Int)
    (rs1 rs2 : List SettledOutcome)
    (h0 : getCachedData cache0 t1 = none) :
    (t2 - t1 < CACHE_DURATION →
      (fetchLiveMatches (fetchLiveMatches cache0 t1 rs1 false).cache t2 rs2 false).data =
        (fetchLiveMatches cache0 t1 rs1 false).data ∧
      (fetchLiveMatches (fetchLiveMatches cache0 t1 rs1 false).cache t2 rs2 false).fetched =
        false) ∧
    (CACHE_DURATION ≤ t2 - t1 →
      (fetchLiveMatches (fetchLiveMatches cache0 t1 rs1 false).cache t2 rs2 false).fetched =
        true) := by
  have hstore := fetch_stores cache0 t1 rs1 h0
  constructor
  · intro hlt
    have hhit : getCachedData (fetchLiveMatches cache0 t1 rs1 false).cache t2 =
        some (fetchLiveMatches cache0 t1 rs1 false).data := by
      rw [hstore, getCachedData, if_pos hlt]
    rw [fetchLiveMatches, if_neg (by simp), hhit]
    exact ⟨rfl, rfl⟩
  · intro hge
    have hmiss : getCachedData (fetchLiveMatches cache0 t1 rs1 false).cache t2 = none := by
      rw [hstore, getCachedData, if_neg (by omega)]
    exact fetch_fetched hmiss

/-- Witness for C7 at concrete times: a second call 1000 ms after the
first is served from the cache without fetching. -/
theorem c7_cache_expiry_witness :
    (CricketApiService.fetchLiveMatches
      (CricketApiService.fetchLiveMatches none 0 [] false).cache 1000 [] false).fetched =
      false := by
  have h := c7_cache_expiry none 0 1000 [] [] rfl
  exact (h.1 (by decide)).2

/-! ### C8: both-team-names invariant of the parsers -/

theorem jsOrD_ne (a : Option String) (d : String) (hd : d ≠ "") : jsOrD a d ≠ "" := by
  cases a with
  | none => exact hd
  | some s =>
    rw [jsOrD]
    split_ifs with hs
    · exact hd
    · exact hs

theorem ne_empty_of_jsLength_pos (s : String) (h : 0 < jsLength s) : s ≠ "" := by
  intro he
  rw [he] at h
  exact absurd h (by decide)

namespace CricketApiService

theorem parseOneFC_guard (now : Int) (i : Nat) (m : RawFCMatch) :
    (parseOneFC now i m).title ≠ "" ∧ (parseOneFC now i m).team1.name ≠ "" ∧
    (parseOneFC now i m).team2.name ≠ "" := by
  refine ⟨?_, ?_, ?_⟩
  · show jsOrD (jsOrS m.title m.name) _ ≠ ""
    apply jsOrD_ne
    apply ne_empty_of_jsLength_pos
    rw [jsLength_append, jsLength_append]
    have h4 : jsLength " vs " = 4 := rfl
    omega
  · exact jsOrD_ne _ _ (by decide)
  · exact jsOrD_ne _ _ (by decide)

theorem mem_parseFCAux (now : Int) :
    ∀ (i : Nat) (l : List RawFCMatch) (c : CricketMatch), c ∈ parseFCAux now i l →
      c.team1.name ≠ "" ∧ c.team2.name ≠ "" := by
  intro i l
  induction l generalizing i with
  | nil => intro c hc; simp [parseFCAux] at hc
  | cons m rest ih =>
    intro c hc
    rw [parseFCAux, if_pos (parseOneFC_guard now i m)] at hc
    rcases List.mem_cons.mp hc with h | h
    · subst h
      exact ⟨(parseOneFC_guard now i m).2.1, (parseOneFC_guard now i m).2.2⟩
    · exact ih (i + 1) c h

theorem parseFCAux_length (now : Int) :
    ∀ (i : Nat) (l : List RawFCMatch), (parseFCAux now i l).length = l.length := by
  intro i l
  induction l generalizing i with
  | nil => rfl
  | cons m rest ih =>
    rw [parseFCAux, if_pos (parseOneFC_guard now i m)]
    simp [ih (i + 1)]

end CricketApiService

namespace OriginalSiteApiService

theorem mem_teamCandFilter {l : List String} {x : String}
    (hx : x ∈ teamCandFilter l) : x ≠ "" := by
  have h2 : x ∈ l.filter fun t =>
      decide (t ≠ "") && !(jsIncludes t "http") &&
      decide (jsLength t < 30) && decide (jsLength t > 2) :=
    List.take_subset _ _ hx
  rw [List.mem_filter] at h2
  have h3 := h2.2
  simp only [Bool.and_eq_true, decide_eq_true_eq] at h3
  exact h3.1.1.1

theorem two_cands_ne {l : List String} {t1 t2 : String}
    (h : some ((teamCandFilter l).headD "", (teamCandFilter l).getD 1 "") = some (t1, t2))
    (hlen : 2 ≤ (teamCandFilter l).length) :
    t1 ≠ "" ∧ t2 ≠ "" := by
  have hp := Option.some.inj h
  have ht1 : t1 = (teamCandFilter l).headD "" := (congrArg Prod.fst hp).symm
  have ht2 : t2 = (teamCandFilter l).getD 1 "" := (congrArg Prod.snd hp).symm
  subst ht1
  subst ht2
  cases hcs : teamCandFilter l with
  | nil => rw [hcs] at hlen; exact absurd hlen (by simp)
  | cons x tl =>
    cases htl : tl with
    | nil => rw [hcs, htl] at hlen; exact absurd hlen (by simp)
    | cons y tl2 =>
      subst htl
      constructor
      · exact mem_teamCandFilter (by rw [hcs]; exact List.mem_cons_self _ _)
      · exact mem_teamCandFilter
          (by rw [hcs]; exact List.mem_cons_of_mem _ (List.mem_cons_self _ _))

theorem extractTeamData_ne {b : MatchBlock} {t1 t2 : String}
    (h : extractTeamData b = some (t1, t2)) : t1 ≠ "" ∧ t2 ≠ "" := by
  simp only [extractTeamData] at h
  by_cases h1 : 2 ≤ (teamCandFilter b.caps1).length
  · rw [if_pos h1] at h
    exact two_cands_ne h h1
  · rw [if_neg h1] at h
    by_cases h2 : 2 ≤ (teamCandFilter b.caps2).length
    · rw [if_pos h2] at h
      exact two_cands_ne h h2
    · rw [if_neg h2] at h
      cases h

theorem parseOneBlock_names (now : Int) (i : Nat) (b : MatchBlock) (t1 t2 : String) :
    (parseOneBlock now i b t1 t2).team1.name = t1 ∧
    (parseOneBlock now i b t1 t2).team2.name = t2 :=
  ⟨rfl, rfl⟩

theorem mem_parseHTMLAux (now : Int) :
    ∀ (i : Nat) (l : List MatchBlock) (c : CricketMatch), c ∈ parseHTMLAux now i l →
      c.team1.name ≠ "" ∧ c.team2.name ≠ "" := by
  intro i l
  induction l generalizing i with
  | nil => intro c hc; simp [parseHTMLAux] at hc
  | cons b rest ih =>
    intro c hc
    rw [parseHTMLAux] at hc
    cases he : extractTeamData b with
    | none =>
      rw [he] at hc
      exact ih (i + 1) c hc
    | some p =>
      obtain ⟨t1, t2⟩ := p
      rw [he] at hc
      rcases List.mem_cons.mp hc with h | h
      · subst h
        have hne := extractTeamData_ne he
        exact ⟨(parseOneBlock_names now i b t1 t2).1 ▸ hne.1,
          (parseOneBlock_names now i b t1 t2).2 ▸ hne.2⟩
      · exact ih (i + 1) c h

end OriginalSiteApiService

open CricketApiService OriginalSiteApiService in
/-- C8: every record either parser outputs has a non-empty `team1.name`
and `team2.name`.  In `parseAdvancedMatchData` the filter predicate
(title and both team names non-empty) is in the code but every mapped
record satisfies it — the " vs " title template and the Team 1 / Team 2
fallbacks make the fields non-empty — so the parser also never drops a
record (output length equals input length): no further invariant is
enforced.  In `parseMatchesFromHTML` the only inclusion guard is that
two team candidates (each of length > 2 by the candidate filter) were
extracted. -/
theorem c8_team_names (now : Int) (arr : List RawFCMatch) (blocks : List MatchBlock) :
    (∀ c ∈ parseAdvancedMatchData now arr, c.team1.name ≠ "" ∧ c.team2.name ≠ "") ∧
    (parseAdvancedMatchData now arr).length = arr.length ∧
    (∀ c ∈ parseMatchesFromHTML now blocks, c.team1.name ≠ "" ∧ c.team2.name ≠ "") :=
  ⟨fun c hc => mem_parseFCAux now 0 arr c hc,
   parseFCAux_length now 0 arr,
   fun c hc => mem_parseHTMLAux now 0 blocks c hc⟩

/-- Witness for C8 at concrete inputs: an all-defaults raw object parses
to one record (nothing filtered) whose team names are the fallbacks, and
a block with two extracted candidates yields a record with those
names. -/
theorem c8_team_names_witness :
    (CricketApiService.parseAdvancedMatchData 0 [{}]).length = 1 ∧
    ((CricketApiService.parseOneFC 0 0 {}).team1.name ≠ "" ∧
     (CricketApiService.parseOneFC 0 0 {}).team2.name ≠ "") := by
  have h := c8_team_names 0 [{}] []
  refine ⟨h.2.1, h.1 (CricketApiService.parseOneFC 0 0 {}) ?_⟩
  rw [CricketApiService.parseAdvancedMatchData, CricketApiService.parseFCAux,
    if_pos (CricketApiService.parseOneFC_guard 0 0 {})]
  exact List.mem_cons_self _ _

end CrickStream
